import Mathlib

/-!
Verification of the llm-inference-benchmark harness.

This file is a shallow embedding, in Lean 4, of the core of the
llm-inference-benchmark repository:

* `src/workloads/synthetic.py` — the synthetic workload generator
  (`SyntheticWorkload.__init__`, `_requests_in_second`, `generate`);
* `src/benchmarks/run_benchmark.py` — the dispatcher
  (`BenchmarkRunner.run` and its inner `_handle_request`);
* `src/metrics/analyze.py` — the metrics reducer
  (`load_results`, `latency_percentiles`, `compute_throughput`, `analyze`).

Modelling conventions:

* Python floats are modelled as exact rationals (`ℚ`); real-number
  arithmetic is exact, so floating-point rounding (including the
  `dtype=np.float32` cast in `analyze`) is abstracted away.
* The process-wide pseudo-random generator of Python's `random` module
  (a Mersenne Twister) is modelled as an abstract deterministic state
  machine (`RNG`, a linear congruential generator): `random.seed`
  produces an initial state, and each sampling primitive is a pure
  function from state to value and next state.  The claims settled
  against this embedding depend only on the determinism of the stream
  and on how the generator's outputs are consumed, never on the
  distribution of the sampled values.
* `time.time()` (the wall clock) is passed as an explicit argument
  wherever the source reads it.
* A Python function that can raise is embedded with `Except` or
  `Option`.
-/

/-! ## Random-number generator model (Python `random` module) -/

/-- State of the modelled pseudo-random generator. -/
abbrev RNG := ℕ

/-- One step of the modelled generator (a linear congruential generator
standing in for the Mersenne Twister; see the module docstring). -/
def lcgNext (g : RNG) : RNG := (g * 1103515245 + 12345) % 2 ^ 31

/-- Models `random.seed(seed)`: the generator state after seeding. -/
def seedRNG (seed : ℕ) : RNG := lcgNext seed

/-- Models `random.random()`: a rational in `[0, 1)` plus the next state. -/
def randUnit (g : RNG) : ℚ × RNG :=
  (((lcgNext g : ℕ) : ℚ) / 2 ^ 31, lcgNext g)

/-- Truncation toward zero, as Python's `int()` applied to a float. -/
def truncQ (q : ℚ) : ℤ := if 0 ≤ q then ⌊q⌋ else ⌈q⌉

/-- Models `random.gauss(mu, sqrt(mu))` as used by `_requests_in_second`
(the standard-library `random` has no `poisson`, so the source always
takes the Gaussian fallback branch).  The Box–Muller sampler is replaced
by a deterministic stand-in centred at `mu`; only determinism of the
stream matters to the claims, not the shape of the distribution. -/
def gaussQ (mu : ℚ) (g : RNG) : ℚ × RNG :=
  let ug := randUnit g
  (mu + (2 * ug.1 - 1), ug.2)

/-- Models `random.randint(a, b)`: a uniform integer in `[a, b]`
inclusive plus the next state.  Python raises `ValueError` when
`a > b`; the model is faithful on the domain `a ≤ b`, which is the
domain on which the generator theorems are stated. -/
def randint (a b : ℤ) (g : RNG) : ℤ × RNG :=
  (a + (lcgNext g : ℤ) % (b - a + 1), lcgNext g)

/-! ## Workload generator (`src/workloads/synthetic.py`) -/

/-- `LLMRequest` (synthetic.py:20-27): a single synthetic inference
request. -/
structure LLMRequest where
  request_id : ℕ
  prompt_tokens : ℤ
  max_new_tokens : ℤ
  arrival_time : ℚ
deriving DecidableEq, Repr

/-- Configuration state stored by `SyntheticWorkload.__init__`
(synthetic.py:31-58).  `duration_s` is a natural number: the source
iterates `range(duration_s)`, which is empty for non-positive values. -/
structure SyntheticWorkload where
  qps : ℚ
  duration_s : ℕ
  prompt_len_range : ℤ × ℤ
  max_new_tokens_range : ℤ × ℤ
  burst_prob : ℚ
  burst_multiplier : ℚ
deriving DecidableEq, Repr

/-- `SyntheticWorkload.__init__` (synthetic.py:31-58): stores the seven
configuration fields verbatim and seeds the global RNG
(`random.seed(seed)`).  The source performs no validation of any kind,
so construction is total; it returns the stored state together with the
seeded generator state. -/
def SyntheticWorkload.init (qps : ℚ) (duration_s : ℕ)
    (prompt_len_range : ℤ × ℤ) (max_new_tokens_range : ℤ × ℤ)
    (burst_prob : ℚ) (burst_multiplier : ℚ) (seed : ℕ) :
    SyntheticWorkload × RNG :=
  (⟨qps, duration_s, prompt_len_range, max_new_tokens_range,
    burst_prob, burst_multiplier⟩, seedRNG seed)

/-- `SyntheticWorkload._requests_in_second` (synthetic.py:60-71):
with probability `burst_prob` the effective rate is
`qps * burst_multiplier`, otherwise `qps`; the arrival count is
`max(0, int(random.gauss(effective_qps, sqrt(effective_qps))))`
(the `random.poisson` branch is dead code: `hasattr(random, "poisson")`
is false for the standard library). -/
def requests_in_second (w : SyntheticWorkload) (g : RNG) : ℕ × RNG :=
  let ug := randUnit g
  let eff := if ug.1 < w.burst_prob then w.qps * w.burst_multiplier else w.qps
  let zg := gaussQ eff ug.2
  ((max 0 (truncQ zg.1)).toNat, zg.2)

/-- The per-second inner loop of `SyntheticWorkload.generate`
(synthetic.py:82-92): for each of `n` arrivals in second `sec`, draw
`prompt_tokens` and `max_new_tokens` with `random.randint` over the two
configured ranges, stamp `arrival_time = start_time + sec`, and assign
consecutive `request_id`s.  Returns the requests of the second, the
next `request_id`, and the next generator state. -/
def gen_within (w : SyntheticWorkload) (start_time : ℚ) (sec : ℕ) :
    ℕ → ℕ → RNG → List LLMRequest × ℕ × RNG
  | 0, rid, g => ([], rid, g)
  | n + 1, rid, g =>
    let pr := randint w.prompt_len_range.1 w.prompt_len_range.2 g
    let mr := randint w.max_new_tokens_range.1 w.max_new_tokens_range.2 pr.2
    let req : LLMRequest := ⟨rid, pr.1, mr.1, start_time + (sec : ℚ)⟩
    let rest := gen_within w start_time sec n (rid + 1) mr.2
    (req :: rest.1, rest.2.1, rest.2.2)

/-- The outer loop of `SyntheticWorkload.generate` (synthetic.py:80-92):
iterate over the seconds `sec, sec + 1, …` for `fuel` steps, sampling
the arrival count of each second and generating its requests. -/
def gen_from (w : SyntheticWorkload) (start_time : ℚ) :
    ℕ → ℕ → ℕ → RNG → List LLMRequest
  | 0, _, _, _ => []
  | fuel + 1, sec, rid, g =>
    let cg := requests_in_second w g
    let blk := gen_within w start_time sec cg.1 rid cg.2
    blk.1 ++ gen_from w start_time fuel (sec + 1) blk.2.1 blk.2.2

/-- `SyntheticWorkload.generate` (synthetic.py:73-92): `request_id`
starts at 0, `start_time` is the value of `time.time()` read at the
start of the call (an explicit argument here), and the seconds
`0 … duration_s - 1` are generated in order.  The iterator is
materialised as a list (`to_list`, synthetic.py:94-98). -/
def SyntheticWorkload.generate (w : SyntheticWorkload) (g : RNG)
    (start_time : ℚ) : List LLMRequest :=
  gen_from w start_time w.duration_s 0 0 g

/-- Projection of a request to the `(requestId, promptTokens,
maxNewTokens)` triple, i.e. every generated field except the
wall-clock-derived `arrival_time`. -/
def reqKey (r : LLMRequest) : ℕ × ℤ × ℤ :=
  (r.request_id, r.prompt_tokens, r.max_new_tokens)

/-- Translation of a request's arrival timestamp by `d` seconds,
leaving every other field unchanged. -/
def shift_arrival (d : ℚ) (r : LLMRequest) : LLMRequest :=
  { r with arrival_time := r.arrival_time + d }

/-- The configuration domain on which `generate` runs without raising
in the source: `random.randint(lo, hi)` requires `lo ≤ hi`
(synthetic.py:83-84), and `math.sqrt(effective_qps)` requires a
non-negative effective rate (synthetic.py:71). -/
def ValidRanges (w : SyntheticWorkload) : Prop :=
  w.prompt_len_range.1 ≤ w.prompt_len_range.2 ∧
  w.max_new_tokens_range.1 ≤ w.max_new_tokens_range.2 ∧
  0 ≤ w.qps ∧ 0 ≤ w.qps * w.burst_multiplier

instance : DecidablePred ValidRanges := fun w => by
  unfold ValidRanges; infer_instance

/-- Modelled from the spec (§4.1, §7): the configuration-validity
predicate behind the spec's `GenerationError` — `qps > 0`, non-empty
positive ranges, `0 ≤ burst_prob ≤ 1`, `burst_multiplier > 0`.  The
source defines no such check and no `GenerationError` class; this
definition exists only to state what the spec says construction should
reject. -/
def ValidConfig (qps : ℚ) (plr : ℤ × ℤ) (mntr : ℤ × ℤ)
    (burst_prob : ℚ) (burst_multiplier : ℚ) : Prop :=
  0 < qps ∧ 0 < plr.1 ∧ plr.1 ≤ plr.2 ∧ 0 < mntr.1 ∧ mntr.1 ≤ mntr.2 ∧
  0 ≤ burst_prob ∧ burst_prob ≤ 1 ∧ 0 < burst_multiplier

/-! ## Trace records and metrics (`src/metrics/analyze.py`) -/

/-- The flat per-request record written by the dispatcher
(run_benchmark.py:71-78) and consumed by the metrics reducer. -/
structure TraceRecord where
  request_id : ℤ
  arrival_time : ℚ
  prompt_tokens : ℤ
  max_new_tokens : ℤ
  latency_s : ℚ
  wall_time_s : ℚ
deriving DecidableEq, Repr

/-- Sorting of the latency sample, as performed internally by
`numpy.percentile`. -/
def sortQ (xs : List ℚ) : List ℚ := List.insertionSort (· ≤ ·) xs

/-- The linear-interpolation order-statistic rule of
`numpy.percentile` (its default interpolation) on an already sorted
sample: position `q/100 * (n-1)`, linear interpolation between the two
neighbouring order statistics. -/
def percentile_of_sorted (xs : List ℚ) (q : ℚ) : ℚ :=
  let pos := q / 100 * ((xs.length : ℚ) - 1)
  let i := (⌊pos⌋).toNat
  let lo := xs.getD i 0
  let hi := xs.getD (i + 1) lo
  lo + (pos - (i : ℚ)) * (hi - lo)

/-- Models `numpy.percentile(xs, q)` with the default linear
interpolation: on an empty sample numpy raises
`IndexError: cannot do a non-empty take from an empty axes.`;
otherwise it sorts and interpolates. -/
def np_percentile (xs : List ℚ) (q : ℚ) : Except String ℚ :=
  if xs.isEmpty then
    Except.error "cannot do a non-empty take from an empty axes"
  else
    Except.ok (percentile_of_sorted (sortQ xs) q)

/-- The three-field result of `latency_percentiles` (analyze.py:30-38). -/
structure Percentiles where
  p50 : ℚ
  p95 : ℚ
  p99 : ℚ
deriving DecidableEq, Repr

/-- `latency_percentiles` (analyze.py:30-38): the three numpy
percentiles of the latency sample; any numpy error propagates. -/
def latency_percentiles (latencies : List ℚ) : Except String Percentiles := do
  let a ← np_percentile latencies 50
  let b ← np_percentile latencies 95
  let c ← np_percentile latencies 99
  Except.ok ⟨a, b, c⟩

/-- The three-field result of `compute_throughput` (analyze.py:57-61). -/
structure Throughput where
  requests_per_sec : ℚ
  tokens_per_sec : ℚ
  duration_s : ℚ
deriving DecidableEq, Repr

/-- `min(r["arrival_time"] for r in records)` for the non-empty record
list `r :: rs` (analyze.py:50). -/
def trace_start (r : TraceRecord) (rs : List TraceRecord) : ℚ :=
  (rs.map TraceRecord.arrival_time).foldl min r.arrival_time

/-- `max(r["arrival_time"] + r["latency_s"] for r in records)` for the
non-empty record list `r :: rs` (analyze.py:51). -/
def trace_end (r : TraceRecord) (rs : List TraceRecord) : ℚ :=
  (rs.map fun x => x.arrival_time + x.latency_s).foldl max
    (r.arrival_time + r.latency_s)

/-- `duration = max(1e-6, end_time - start_time)` (analyze.py:52). -/
def trace_duration (r : TraceRecord) (rs : List TraceRecord) : ℚ :=
  max ((1 : ℚ) / 1000000) (trace_end r rs - trace_start r rs)

/-- `compute_throughput` (analyze.py:41-61): `{}` (here `none`) on an
empty record list; otherwise requests per second, tokens per second
(over requested `max_new_tokens`) and the clamped duration. -/
def compute_throughput (records : List TraceRecord) : Option Throughput :=
  match records with
  | [] => none
  | r :: rs =>
    some ⟨(((r :: rs).length : ℕ) : ℚ) / trace_duration r rs,
          ((((r :: rs).map TraceRecord.max_new_tokens).sum : ℤ) : ℚ) /
            trace_duration r rs,
          trace_duration r rs⟩

/-- The summary dictionary built by `analyze` (analyze.py:72-76): the
three percentile entries, the throughput entries when present (the
dictionary `update` with `compute_throughput`, which adds nothing for
an empty trace), and `num_requests`. -/
structure Summary where
  p50 : ℚ
  p95 : ℚ
  p99 : ℚ
  throughput : Option Throughput
  num_requests : ℕ
deriving DecidableEq, Repr

/-- `analyze` (analyze.py:64-77) applied to already-loaded records:
build the latency sample, compute percentiles (numpy raises on an
empty sample, which propagates), merge in the throughput fields and
the request count. -/
def analyze (records : List TraceRecord) : Except String Summary := do
  let ps ← latency_percentiles (records.map TraceRecord.latency_s)
  Except.ok ⟨ps.p50, ps.p95, ps.p99, compute_throughput records,
    records.length⟩

/-- Discriminator for `Except` (did the computation raise?). -/
def exceptOk {ε α : Type} : Except ε α → Bool
  | Except.ok _ => true
  | Except.error _ => false

/-! ## Dispatcher (`src/benchmarks/run_benchmark.py`) -/

/-- The dictionary returned by a successful backend `generate` call
(vllm_server.py:122-126, sglang_server.py:116-120), restricted to the
fields the dispatcher reads. -/
structure BackendResponse where
  latency_s : ℚ
  output_text : String
deriving DecidableEq, Repr

/-- A backend failure (`requests` exception or non-success HTTP status
raised by `response.raise_for_status()`), carried as its message. -/
abbrev BackendError := String

/-- The inner `_handle_request` (run_benchmark.py:60-81): on success
the worker appends the flat record built from the request and the
response (`latency_s` from the backend, `wall_time_s` measured around
the call, here the explicit `wall` argument); if the backend call
raises, the exception escapes the worker — the record is never
appended, and because the runner iterates `as_completed(futures)`
without calling `result()` (run_benchmark.py:89-90) the exception is
silently discarded. -/
def BenchmarkRunner.handle_request
    (backend : LLMRequest → Except BackendError BackendResponse)
    (wall : LLMRequest → ℚ) (req : LLMRequest) : Option TraceRecord :=
  match backend req with
  | Except.error _ => none
  | Except.ok resp =>
    some ⟨(req.request_id : ℤ), req.arrival_time, req.prompt_tokens,
      req.max_new_tokens, resp.latency_s, wall req⟩

/-- `BenchmarkRunner.run` (run_benchmark.py:52-97): every request of
the workload is submitted; the collected `results` list contains
exactly the records of the requests whose backend call succeeded.
The lock around `results.append` makes the collected multiset
independent of completion interleaving, and the downstream consumer is
order-independent, so the run is modelled as the order-preserving
aggregation of the per-request outcomes. -/
def BenchmarkRunner.run
    (backend : LLMRequest → Except BackendError BackendResponse)
    (wall : LLMRequest → ℚ) (reqs : List LLMRequest) : List TraceRecord :=
  reqs.filterMap (BenchmarkRunner.handle_request backend wall)

/-- The number of failure entries recorded by `BenchmarkRunner.run`.
The source has no failure-recording path of any kind: a worker whose
backend call raises appends nothing, and the exception held by its
future is dropped at run_benchmark.py:89-90.  The recorded-failure
count is therefore identically zero. -/
def BenchmarkRunner.recorded_failures : ℕ := 0

/-! ## Persistence round-trip (`run_benchmark.py` / `analyze.py`) -/

/-- A JSON scalar as it appears in a persisted trace line: the integer
and number values produced by `json.dumps` on the record dictionary.
`json.loads(json.dumps(x))` is the identity on such dictionaries (a
contract of the external `json` library), so serialisation is modelled
at the level of this abstract syntax. -/
inductive JVal where
  | jint : ℤ → JVal
  | jnum : ℚ → JVal
deriving DecidableEq, Repr

/-- Association-list lookup over the fields of one persisted line. -/
def jlookup : List (String × JVal) → String → Option JVal
  | [], _ => none
  | (k, v) :: rest, key => if k = key then some v else jlookup rest key

/-- The line written for one record by `BenchmarkRunner.run`
(run_benchmark.py:71-78 and 94-97): the six-field flat dictionary, in
source order. -/
def record_to_json (r : TraceRecord) : List (String × JVal) :=
  [("request_id", JVal.jint r.request_id),
   ("arrival_time", JVal.jnum r.arrival_time),
   ("prompt_tokens", JVal.jint r.prompt_tokens),
   ("max_new_tokens", JVal.jint r.max_new_tokens),
   ("latency_s", JVal.jnum r.latency_s),
   ("wall_time_s", JVal.jnum r.wall_time_s)]

/-- The result-file write loop of `BenchmarkRunner.run`
(run_benchmark.py:94-97): one `json.dumps` line per collected record. -/
def save_results (trace : List TraceRecord) : List (List (String × JVal)) :=
  trace.map record_to_json

/-- `load_results` (analyze.py:19-27): `json.loads` of every line of
the results file, returned as the list of parsed dictionaries. -/
def load_results (lines : List (List (String × JVal))) :
    List (List (String × JVal)) :=
  lines

/-- The field accesses consumers perform on a loaded line
(analyze.py:50-55 and 70): reading each of the six fields back out of
the parsed dictionary, with the type each consumer expects. -/
def parse_record (o : List (String × JVal)) : Option TraceRecord := do
  let ri ← match jlookup o "request_id" with
    | some (JVal.jint n) => some n | _ => none
  let at_ ← match jlookup o "arrival_time" with
    | some (JVal.jnum q) => some q | _ => none
  let pt ← match jlookup o "prompt_tokens" with
    | some (JVal.jint n) => some n | _ => none
  let mnt ← match jlookup o "max_new_tokens" with
    | some (JVal.jint n) => some n | _ => none
  let ls ← match jlookup o "latency_s" with
    | some (JVal.jnum q) => some q | _ => none
  let ws ← match jlookup o "wall_time_s" with
    | some (JVal.jnum q) => some q | _ => none
  some ⟨ri, at_, pt, mnt, ls, ws⟩

/-! ## Concrete instances used by counterexamples and witnesses -/

/-- The single record of the spec's throughput edge case
(spec §8): `arrivalTime 100.0`, `backendLatency 0.05`,
`maxNewTokens 50`. -/
def single_record : TraceRecord :=
  ⟨0, 100, 10, 50, 1 / 20, 1 / 20⟩

/-- A concrete trace record used by witnesses. -/
def sample_record_a : TraceRecord :=
  ⟨0, 100, 10, 50, 1 / 20, 1 / 10⟩

/-- A second concrete trace record used by witnesses. -/
def sample_record_b : TraceRecord :=
  ⟨1, 101, 12, 60, 3 / 20, 1 / 5⟩

/-- A concrete workload configuration (`qps = 3`, one second, default
ranges, no bursts, seed 42) together with its seeded generator state. -/
def sample_workload : SyntheticWorkload × RNG :=
  SyntheticWorkload.init 3 1 (32, 512) (64, 256) 0 3 42

/-- A concrete request used by dispatcher witnesses. -/
def sample_request : LLMRequest := ⟨0, 10, 50, 100⟩

/-- A backend stub whose call always fails (connection refused). -/
def failing_backend : LLMRequest → Except BackendError BackendResponse :=
  fun _ => Except.error "connection refused"

/-- A backend stub whose call always succeeds with latency 1/20. -/
def ok_backend : LLMRequest → Except BackendError BackendResponse :=
  fun _ => Except.ok ⟨1 / 20, "out"⟩

/-- A wall-clock stub assigning every request wall time 1/10. -/
def const_wall : LLMRequest → ℚ := fun _ => 1 / 10

/-! ## Helper lemmas -/

/-- Reading the six fields back out of a persisted line reproduces the
original record exactly. -/
theorem parse_record_to_json (r : TraceRecord) :
    parse_record (record_to_json r) = some r := rfl

/-- The trace collected by the runner has one record per request whose
backend call succeeded. -/
theorem run_length_eq_countP
    (backend : LLMRequest → Except BackendError BackendResponse)
    (wall : LLMRequest → ℚ) (reqs : List LLMRequest) :
    (BenchmarkRunner.run backend wall reqs).length =
      reqs.countP (fun r => exceptOk (backend r)) := by
  induction reqs with
  | nil => rfl
  | cons r t ih =>
    cases hb : backend r with
    | error e =>
      simp [BenchmarkRunner.run, BenchmarkRunner.handle_request, hb,
        List.countP_cons, exceptOk, List.filterMap_cons] at *
      exact ih
    | ok resp =>
      simp [BenchmarkRunner.run, BenchmarkRunner.handle_request, hb,
        List.countP_cons, exceptOk, List.filterMap_cons] at *
      exact ih

/-! ## Claim theorems -/

/-- C3 (counterexample): on the empty trace, `analyze` does not return
a Summary with `num_requests = 0`: it raises, because
`np.percentile` of the empty latency sample raises; and
`compute_throughput` of the empty list yields no throughput fields. -/
theorem C3_empty_trace_raises :
    analyze [] = Except.error "cannot do a non-empty take from an empty axes" ∧
    compute_throughput [] = none :=
  ⟨rfl, rfl⟩

/-- C3 (amended): `analyze` returns a Summary exactly on non-empty
traces; on the empty trace the percentile computation raises and the
error propagates out of `analyze` instead of a `num_requests = 0`
Summary being returned. -/
theorem C3_analyze_ok_iff_nonempty (records : List TraceRecord) :
    exceptOk (analyze records) = true ↔ records ≠ [] := by
  cases records with
  | nil =>
    have h1 : exceptOk (analyze ([] : List TraceRecord)) = false := rfl
    simp [h1]
  | cons r rs =>
    have h1 : exceptOk (analyze (r :: rs)) = true := rfl
    simp [h1]

/-- C4 (counterexample): on the single-record trace
`{arrivalTime 100.0, backendLatency 0.05, maxNewTokens 50}`,
`compute_throughput` returns `durationS = 0.05` and
`requestsPerSec = 20` — not the claimed `durationS = ε = 1e-6` and
`requestsPerSec = 1/ε = 1e6`: the window end includes the record's
latency, so the ε floor does not engage. -/
theorem C4_single_record_cex :
    compute_throughput [single_record] = some ⟨20, 1000, 1 / 20⟩ ∧
    ((1 : ℚ) / 20 ≠ 1 / 1000000) ∧ ((20 : ℚ) ≠ 1000000) := by
  refine ⟨?_, by norm_num, by norm_num⟩
  simp [compute_throughput, trace_duration, trace_end, trace_start,
    single_record]
  norm_num [max_eq_right]

/-- C4 (amended): on any single-record trace the measurement window is
`arrivalTime` to `arrivalTime + backendLatency`, so
`durationS = max(ε, backendLatency)` (for the spec's record, `0.05`)
and `requestsPerSec = 1/durationS` (here `20`), a finite positive
number; the ε clamp engages only when `backendLatency ≤ ε`. -/
theorem C4_single_record_throughput (r : TraceRecord) :
    compute_throughput [r] =
      some ⟨1 / max ((1 : ℚ) / 1000000) r.latency_s,
            (r.max_new_tokens : ℚ) / max ((1 : ℚ) / 1000000) r.latency_s,
            max ((1 : ℚ) / 1000000) r.latency_s⟩ ∧
    0 < max ((1 : ℚ) / 1000000) r.latency_s := by
  constructor
  · simp [compute_throughput, trace_duration, trace_end, trace_start]
  · exact lt_of_lt_of_le (by norm_num) (le_max_left _ _)

/-- C5: on every non-empty trace, `compute_throughput` returns
`durationS = max(ε, maxOverRecords(arrivalTime + backendLatency) -
minOverRecords(arrivalTime))` with `ε = 1e-6`,
`requestsPerSec = numRequests / durationS`,
`tokensPerSec = sum(maxNewTokens) / durationS`, and the duration is
strictly positive. -/
theorem C5_throughput_formula (r : TraceRecord) (rs : List TraceRecord) :
    compute_throughput (r :: rs) =
      some ⟨(((r :: rs).length : ℕ) : ℚ) / trace_duration r rs,
            ((((r :: rs).map TraceRecord.max_new_tokens).sum : ℤ) : ℚ) /
              trace_duration r rs,
            trace_duration r rs⟩ ∧
    trace_duration r rs =
      max ((1 : ℚ) / 1000000) (trace_end r rs - trace_start r rs) ∧
    0 < trace_duration r rs :=
  ⟨rfl, rfl, by
    unfold trace_duration
    exact lt_of_lt_of_le (by norm_num) (le_max_left _ _)⟩

/-- C6: for the latency sample `[0.1, 0.2, 0.3, 0.4, 0.5]`, the linear
interpolation rule gives `p50 = 0.3` exactly, `p95 = 0.48` and
`p99 = 0.496`, both strictly between `0.4` and `0.5`. -/
theorem C6_percentiles_exact :
    latency_percentiles [1/10, 2/10, 3/10, 4/10, 5/10] =
      Except.ok ⟨3/10, 12/25, 62/125⟩ ∧
    (2 : ℚ)/5 < 12/25 ∧ (12 : ℚ)/25 < 1/2 ∧
    (2 : ℚ)/5 < 62/125 ∧ (62 : ℚ)/125 < 1/2 := by
  have hsort : sortQ [1/10, 2/10, 3/10, 4/10, 5/10] =
      [1/10, 2/10, 3/10, 4/10, 5/10] := by
    apply List.Sorted.insertionSort_eq
    simp [List.sorted_cons]
    norm_num
  have h50 : percentile_of_sorted [1/10, 2/10, 3/10, 4/10, 5/10] 50 = 3/10 := by
    unfold percentile_of_sorted
    norm_num [show Int.toNat 2 = 2 from rfl, List.getD]
  have h95 : percentile_of_sorted [1/10, 2/10, 3/10, 4/10, 5/10] 95 = 12/25 := by
    unfold percentile_of_sorted
    norm_num [show Int.toNat 3 = 3 from rfl, List.getD]
  have h99 : percentile_of_sorted [1/10, 2/10, 3/10, 4/10, 5/10] 99 = 62/125 := by
    unfold percentile_of_sorted
    norm_num [show Int.toNat 3 = 3 from rfl, List.getD]
  have hlp : latency_percentiles [1/10, 2/10, 3/10, 4/10, 5/10] =
      Except.ok ⟨percentile_of_sorted (sortQ [1/10, 2/10, 3/10, 4/10, 5/10]) 50,
                 percentile_of_sorted (sortQ [1/10, 2/10, 3/10, 4/10, 5/10]) 95,
                 percentile_of_sorted (sortQ [1/10, 2/10, 3/10, 4/10, 5/10]) 99⟩ :=
    rfl
  refine ⟨?_, by norm_num, by norm_num, by norm_num, by norm_num⟩
  rw [hlp, hsort, h50, h95, h99]

/-- C7 (counterexample): construction of the workload generator with an
invalid configuration (`qps = -1 ≤ 0` and an empty prompt range
`(512, 32)`) does not fail fast: `__init__` performs no validation and
returns the state with the invalid fields stored verbatim (the
repository defines no `GenerationError` at all). -/
theorem C7_invalid_config_accepted :
    SyntheticWorkload.init (-1) 5 (512, 32) (64, 256) 0 3 42 =
      ({ qps := -1, duration_s := 5, prompt_len_range := (512, 32),
         max_new_tokens_range := (64, 256), burst_prob := 0,
         burst_multiplier := 3 }, seedRNG 42) ∧
    ¬ ValidConfig (-1) (512, 32) (64, 256) 0 3 :=
  ⟨rfl, fun h => absurd h.1 (by norm_num)⟩

/-- C7 (amended): construction never validates the configuration: even
for every invalid configuration (in the sense of the spec's §4.1
validity predicate) construction succeeds, storing the fields verbatim
and seeding the RNG; invalid values can only surface later, during
generation. -/
theorem C7_init_total (qps : ℚ) (duration_s : ℕ) (plr mntr : ℤ × ℤ)
    (bp bm : ℚ) (seed : ℕ) (h : ¬ ValidConfig qps plr mntr bp bm) :
    SyntheticWorkload.init qps duration_s plr mntr bp bm seed =
      ({ qps := qps, duration_s := duration_s, prompt_len_range := plr,
         max_new_tokens_range := mntr, burst_prob := bp,
         burst_multiplier := bm }, seedRNG seed) :=
  rfl

/-- C7 (witness): the amended theorem applied at the concrete invalid
configuration of the counterexample. -/
theorem C7_init_total_witness :
    ¬ ValidConfig (-1) (512, 32) (64, 256) 0 3 ∧
    SyntheticWorkload.init (-1) 5 (512, 32) (64, 256) 0 3 42 =
      ({ qps := -1, duration_s := 5, prompt_len_range := (512, 32),
         max_new_tokens_range := (64, 256), burst_prob := 0,
         burst_multiplier := 3 }, seedRNG 42) :=
  ⟨fun h => absurd h.1 (by norm_num),
   C7_init_total (-1) 5 (512, 32) (64, 256) 0 3 42
     (fun h => absurd h.1 (by norm_num))⟩

/-- C9: writing a trace in the line-delimited persistence format and
reading it back with `load_results` reproduces every record's six
field values exactly. -/
theorem C9_persistence_roundtrip (trace : List TraceRecord) :
    (load_results (save_results trace)).map parse_record =
      trace.map some := by
  induction trace with
  | nil => rfl
  | cons r t ih =>
    simp only [load_results, save_results, List.map_cons,
      parse_record_to_json, List.cons.injEq, true_and]
    simpa [load_results, save_results] using ih

/-- C2 (counterexample): a submitted request whose backend call raises
`BackendError` is not recorded as a failed entry: the run collects no
record and no failure entry for it, so the number of TraceRecords plus
recorded failures (identically zero in the source) is 0, not the 1
request submitted — the failure is silently dropped. -/
theorem C2_failed_request_dropped :
    BenchmarkRunner.run failing_backend const_wall [sample_request] = [] ∧
    (BenchmarkRunner.run failing_backend const_wall [sample_request]).length +
        BenchmarkRunner.recorded_failures ≠ [sample_request].length :=
  ⟨rfl, by decide⟩

/-- C2 (amended): the dispatcher collects exactly one TraceRecord per
request whose backend call succeeds (with the request's identity fields
copied and the backend latency and measured wall time attached); a
request whose call raises produces neither a TraceRecord nor any
recorded failure entry (the source records no failures), and a failing
request does not abort the run or affect the handling of the other
requests. -/
theorem C2_run_collects_successes
    (backend : LLMRequest → Except BackendError BackendResponse)
    (wall : LLMRequest → ℚ) (reqs reqs2 : List LLMRequest) :
    (BenchmarkRunner.run backend wall reqs).length +
        BenchmarkRunner.recorded_failures =
      reqs.countP (fun r => exceptOk (backend r)) ∧
    BenchmarkRunner.run backend wall (reqs ++ reqs2) =
      BenchmarkRunner.run backend wall reqs ++
        BenchmarkRunner.run backend wall reqs2 ∧
    (∀ r resp, backend r = Except.ok resp →
      BenchmarkRunner.run backend wall [r] =
        [⟨(r.request_id : ℤ), r.arrival_time, r.prompt_tokens,
          r.max_new_tokens, resp.latency_s, wall r⟩]) := by
  refine ⟨?_, ?_, ?_⟩
  · simpa [BenchmarkRunner.recorded_failures] using
      run_length_eq_countP backend wall reqs
  · simp [BenchmarkRunner.run, List.filterMap_append]
  · intro r resp h
    simp [BenchmarkRunner.run, BenchmarkRunner.handle_request, h]

/-- C2 (witness): the amended theorem applied at a concrete succeeding
backend and request. -/
theorem C2_run_collects_successes_witness :
    ok_backend sample_request = Except.ok ⟨1 / 20, "out"⟩ ∧
    BenchmarkRunner.run ok_backend const_wall [sample_request] =
      [⟨0, 100, 10, 50, 1 / 20, 1 / 10⟩] :=
  ⟨rfl,
   ((C2_run_collects_successes ok_backend const_wall [sample_request]
       []).2.2 sample_request ⟨1 / 20, "out"⟩ rfl).trans (by rfl)⟩

theorem foldl_min_mem (l : List ℚ) : ∀ a : ℚ, l.foldl min a ∈ a :: l := by
  induction l with
  | nil => intro a; simp
  | cons x t ih =>
    intro a
    simp only [List.foldl_cons]
    rcases List.mem_cons.mp (ih (min a x)) with h1 | h1
    · rcases min_choice a x with hm | hm
      · rw [h1, hm]; exact List.mem_cons_self _ _
      · rw [h1, hm]; exact List.mem_cons_of_mem _ (List.mem_cons_self _ _)
    · exact List.mem_cons_of_mem _ (List.mem_cons_of_mem _ h1)

theorem foldl_min_le (l : List ℚ) :
    ∀ (a : ℚ), ∀ x ∈ a :: l, l.foldl min a ≤ x := by
  induction l with
  | nil => intro a x hx; simp only [List.mem_singleton] at hx; simp [hx]
  | cons y t ih =>
    intro a x hx
    simp only [List.foldl_cons]
    rcases List.mem_cons.mp hx with h1 | h1
    · rw [h1]
      exact le_trans (ih (min a y) (min a y) (List.mem_cons_self _ _))
        (min_le_left _ _)
    · rcases List.mem_cons.mp h1 with h2 | h2
      · rw [h2]
        exact le_trans (ih (min a y) (min a y) (List.mem_cons_self _ _))
          (min_le_right _ _)
      · exact ih (min a y) x (List.mem_cons_of_mem _ h2)

theorem foldl_min_perm (a b : ℚ) (l m : List ℚ)
    (h : (a :: l).Perm (b :: m)) : l.foldl min a = m.foldl min b := by
  apply le_antisymm
  · exact foldl_min_le l a _ (h.mem_iff.mpr (foldl_min_mem m b))
  · exact foldl_min_le m b _ (h.mem_iff.mp (foldl_min_mem l a))

theorem foldl_max_mem (l : List ℚ) : ∀ a : ℚ, l.foldl max a ∈ a :: l := by
  induction l with
  | nil => intro a; simp
  | cons x t ih =>
    intro a
    simp only [List.foldl_cons]
    rcases List.mem_cons.mp (ih (max a x)) with h1 | h1
    · rcases max_choice a x with hm | hm
      · rw [h1, hm]; exact List.mem_cons_self _ _
      · rw [h1, hm]; exact List.mem_cons_of_mem _ (List.mem_cons_self _ _)
    · exact List.mem_cons_of_mem _ (List.mem_cons_of_mem _ h1)

theorem foldl_max_ge (l : List ℚ) :
    ∀ (a : ℚ), ∀ x ∈ a :: l, x ≤ l.foldl max a := by
  induction l with
  | nil => intro a x hx; simp only [List.mem_singleton] at hx; simp [hx]
  | cons y t ih =>
    intro a x hx
    simp only [List.foldl_cons]
    rcases List.mem_cons.mp hx with h1 | h1
    · rw [h1]
      exact le_trans (le_max_left _ _)
        (ih (max a y) (max a y) (List.mem_cons_self _ _))
    · rcases List.mem_cons.mp h1 with h2 | h2
      · rw [h2]
        exact le_trans (le_max_right _ _)
          (ih (max a y) (max a y) (List.mem_cons_self _ _))
      · exact ih (max a y) x (List.mem_cons_of_mem _ h2)

theorem foldl_max_perm (a b : ℚ) (l m : List ℚ)
    (h : (a :: l).Perm (b :: m)) : l.foldl max a = m.foldl max b := by
  apply le_antisymm
  · exact foldl_max_ge m b _ (h.mem_iff.mp (foldl_max_mem l a))
  · exact foldl_max_ge l a _ (h.mem_iff.mpr (foldl_max_mem m b))

theorem sortQ_perm (l m : List ℚ) (h : l.Perm m) : sortQ l = sortQ m :=
  @List.eq_of_perm_of_sorted ℚ (· ≤ ·) inferInstance _ _
    ((List.perm_insertionSort _ l).trans
      (h.trans (List.perm_insertionSort _ m).symm))
    (List.sorted_insertionSort _ l)
    (List.sorted_insertionSort _ m)

theorem np_percentile_perm (l m : List ℚ) (q : ℚ) (h : l.Perm m) :
    np_percentile l q = np_percentile m q := by
  have hlen := h.length_eq
  have hemp : l.isEmpty = m.isEmpty := by
    cases l <;> cases m <;> simp_all
  unfold np_percentile
  rw [hemp, sortQ_perm l m h]

theorem latency_percentiles_perm (l m : List ℚ) (h : l.Perm m) :
    latency_percentiles l = latency_percentiles m := by
  unfold latency_percentiles
  rw [np_percentile_perm l m 50 h, np_percentile_perm l m 95 h,
    np_percentile_perm l m 99 h]

theorem compute_throughput_perm (l m : List TraceRecord) (h : l.Perm m) :
    compute_throughput l = compute_throughput m := by
  cases l with
  | nil =>
    have h2 : m = [] := h.symm.eq_nil
    rw [h2]
  | cons r rs =>
    cases m with
    | nil =>
      have h2 := h.eq_nil
      simp at h2
    | cons s ms =>
      have hstart : trace_start r rs = trace_start s ms := by
        apply foldl_min_perm
        simpa using h.map TraceRecord.arrival_time
      have hend : trace_end r rs = trace_end s ms := by
        apply foldl_max_perm
        simpa using h.map (fun x => x.arrival_time + x.latency_s)
      have hsum : ((r :: rs).map TraceRecord.max_new_tokens).sum =
          ((s :: ms).map TraceRecord.max_new_tokens).sum :=
        (h.map TraceRecord.max_new_tokens).sum_eq
      have hlen : (r :: rs).length = (s :: ms).length := h.length_eq
      simp only [compute_throughput, trace_duration, hstart, hend, hsum, hlen]

/-- C8: permuting the records of a trace leaves the Summary produced
by the metrics reducer unchanged — the percentiles are computed over
the sorted sample and the throughput fields over minimum, maximum, sum
and count, all of which are order-independent. -/
theorem C8_analyze_perm_invariant (l m : List TraceRecord) (h : l.Perm m) :
    analyze l = analyze m := by
  unfold analyze
  rw [latency_percentiles_perm _ _ (h.map TraceRecord.latency_s),
    compute_throughput_perm l m h, h.length_eq]

/-- C8 (witness): the invariance applied to a concrete two-record
trace and its transposition. -/
theorem C8_analyze_perm_invariant_witness :
    ([sample_record_a, sample_record_b] : List TraceRecord).Perm
        [sample_record_b, sample_record_a] ∧
    analyze [sample_record_a, sample_record_b] =
      analyze [sample_record_b, sample_record_a] :=
  ⟨List.Perm.swap sample_record_b sample_record_a [],
   C8_analyze_perm_invariant _ _
     (List.Perm.swap sample_record_b sample_record_a [])⟩

theorem gen_within_length (w : SyntheticWorkload) (t0 : ℚ) (sec : ℕ) :
    ∀ (n rid : ℕ) (g : RNG), (gen_within w t0 sec n rid g).1.length = n := by
  intro n
  induction n with
  | zero => intro rid g; simp [gen_within]
  | succ k ih => intro rid g; simp [gen_within, ih]

theorem gen_within_rid (w : SyntheticWorkload) (t0 : ℚ) (sec : ℕ) :
    ∀ (n rid : ℕ) (g : RNG), (gen_within w t0 sec n rid g).2.1 = rid + n := by
  intro n
  induction n with
  | zero => intro rid g; simp [gen_within]
  | succ k ih => intro rid g; simp [gen_within, ih]; omega

theorem gen_within_map_id (w : SyntheticWorkload) (t0 : ℚ) (sec : ℕ) :
    ∀ (n rid : ℕ) (g : RNG),
      (gen_within w t0 sec n rid g).1.map LLMRequest.request_id =
        List.range' rid n := by
  intro n
  induction n with
  | zero => intro rid g; simp [gen_within]
  | succ k ih =>
    intro rid g
    rw [List.range'_succ]
    simp [gen_within, ih]

theorem gen_within_arrival (w : SyntheticWorkload) (t0 : ℚ) (sec : ℕ) :
    ∀ (n rid : ℕ) (g : RNG) (r : LLMRequest),
      r ∈ (gen_within w t0 sec n rid g).1 →
        r.arrival_time = t0 + (sec : ℚ) := by
  intro n
  induction n with
  | zero => intro rid g r hr; simp [gen_within] at hr
  | succ k ih =>
    intro rid g r hr
    simp only [gen_within, List.mem_cons] at hr
    rcases hr with hr | hr
    · rw [hr]
    · exact ih (rid + 1) _ r hr

theorem gen_from_map_id (w : SyntheticWorkload) (t0 : ℚ) :
    ∀ (fuel sec rid : ℕ) (g : RNG),
      (gen_from w t0 fuel sec rid g).map LLMRequest.request_id =
        List.range' rid (gen_from w t0 fuel sec rid g).length := by
  intro fuel
  induction fuel with
  | zero => intro sec rid g; simp [gen_from]
  | succ k ih =>
    intro sec rid g
    simp only [gen_from, List.map_append, List.length_append]
    rw [gen_within_map_id, ih, gen_within_rid, gen_within_length]
    rw [Nat.add_comm (requests_in_second w g).1
      (gen_from w t0 k (sec + 1) _ _).length]
    exact List.range'_append_1 _ _ _

theorem gen_from_arrival (w : SyntheticWorkload) (t0 : ℚ) :
    ∀ (fuel sec rid : ℕ) (g : RNG) (r : LLMRequest),
      r ∈ gen_from w t0 fuel sec rid g →
        ∃ j : ℕ, sec ≤ j ∧ j < sec + fuel ∧ r.arrival_time = t0 + (j : ℚ) := by
  intro fuel
  induction fuel with
  | zero => intro sec rid g r hr; simp [gen_from] at hr
  | succ k ih =>
    intro sec rid g r hr
    simp only [gen_from, List.mem_append] at hr
    rcases hr with hr | hr
    · exact ⟨sec, le_refl sec, by omega, gen_within_arrival w t0 sec _ _ _ r hr⟩
    · obtain ⟨j, hj1, hj2, hj3⟩ := ih (sec + 1) _ _ r hr
      exact ⟨j, by omega, by omega, hj3⟩

theorem sorted_of_all_eq (l : List ℚ) (c : ℚ) (h : ∀ x ∈ l, x = c) :
    List.Sorted (· ≤ ·) l := by
  induction l with
  | nil => exact List.sorted_nil
  | cons a t ih =>
    rw [List.sorted_cons]
    refine ⟨fun b hb => ?_, ih fun x hx => h x (List.mem_cons_of_mem _ hx)⟩
    rw [h a (List.mem_cons_self _ _), h b (List.mem_cons_of_mem _ hb)]

theorem gen_from_sorted (w : SyntheticWorkload) (t0 : ℚ) :
    ∀ (fuel sec rid : ℕ) (g : RNG),
      List.Sorted (· ≤ ·)
        ((gen_from w t0 fuel sec rid g).map LLMRequest.arrival_time) := by
  intro fuel
  induction fuel with
  | zero => intro sec rid g; simp [gen_from]
  | succ k ih =>
    intro sec rid g
    simp only [gen_from, List.map_append]
    rw [List.Sorted, List.pairwise_append]
    refine ⟨?_, ih (sec + 1) _ _, ?_⟩
    · apply sorted_of_all_eq _ (t0 + (sec : ℚ))
      intro x hx
      obtain ⟨r, hr, hrx⟩ := List.mem_map.mp hx
      rw [← hrx]
      exact gen_within_arrival w t0 sec _ _ _ r hr
    · intro a ha b hb
      obtain ⟨r, hr, hra⟩ := List.mem_map.mp ha
      obtain ⟨s, hs, hsb⟩ := List.mem_map.mp hb
      obtain ⟨j, hj1, _, hj3⟩ := gen_from_arrival w t0 k (sec + 1) _ _ s hs
      rw [← hra, ← hsb, gen_within_arrival w t0 sec _ _ _ r hr, hj3]
      have hsecj : (sec : ℚ) ≤ (j : ℚ) := by
        exact_mod_cast le_trans (Nat.le_succ sec) hj1
      linarith

theorem sample_workload_count :
    (requests_in_second sample_workload.1 sample_workload.2).1 = 2 := by
  norm_num [requests_in_second, randUnit, gaussQ, truncQ, lcgNext, seedRNG,
    sample_workload, SyntheticWorkload.init, show Int.toNat 2 = 2 from rfl]

theorem gen_within_shift (w : SyntheticWorkload) (t0 d : ℚ) (sec : ℕ) :
    ∀ (n rid : ℕ) (g : RNG),
      gen_within w (t0 + d) sec n rid g =
        ((gen_within w t0 sec n rid g).1.map (shift_arrival d),
         (gen_within w t0 sec n rid g).2) := by
  intro n
  induction n with
  | zero => intro rid g; simp [gen_within]
  | succ k ih =>
    intro rid g
    simp only [gen_within, ih, List.map_cons]
    have harr : t0 + d + (sec : ℚ) = t0 + (sec : ℚ) + d := by ring
    simp [shift_arrival, harr]

theorem gen_from_shift (w : SyntheticWorkload) (t0 d : ℚ) :
    ∀ (fuel sec rid : ℕ) (g : RNG),
      gen_from w (t0 + d) fuel sec rid g =
        (gen_from w t0 fuel sec rid g).map (shift_arrival d) := by
  intro fuel
  induction fuel with
  | zero => intro sec rid g; simp [gen_from]
  | succ k ih =>
    intro sec rid g
    simp only [gen_from, List.map_append, gen_within_shift, ih]

theorem generate_epoch_shift (w : SyntheticWorkload) (g : RNG) (t0 t0' : ℚ) :
    w.generate g t0' = (w.generate g t0).map (shift_arrival (t0' - t0)) := by
  have h2 := gen_from_shift w t0 (t0' - t0) w.duration_s 0 0 g
  rw [show t0 + (t0' - t0) = t0' by ring] at h2
  exact h2

theorem generate_reqKey_epoch (w : SyntheticWorkload) (g : RNG) (t0 t0' : ℚ) :
    (w.generate g t0').map reqKey = (w.generate g t0).map reqKey := by
  rw [generate_epoch_shift w g t0 t0', List.map_map]
  simp [Function.comp, reqKey, shift_arrival]

/-- C10: on the valid-range configuration domain, every generated
sequence has `request_id`s that are exactly `0, 1, 2, …` in generation
order (unique, contiguous from 0, strictly increasing, second-major),
`arrival_time` is non-decreasing in generation order with every arrival
of second `t` stamped `start_time + t` for some `t < duration_s`, and a
zero-second duration generates the empty sequence. -/
theorem C10_generator_invariants (w : SyntheticWorkload) (g : RNG) (t0 : ℚ)
    (h : ValidRanges w) :
    (w.generate g t0).map LLMRequest.request_id =
      List.range (w.generate g t0).length ∧
    List.Sorted (· ≤ ·) ((w.generate g t0).map LLMRequest.arrival_time) ∧
    (∀ r ∈ w.generate g t0, ∃ t : ℕ, t < w.duration_s ∧
      r.arrival_time = t0 + (t : ℚ)) ∧
    (w.duration_s = 0 → w.generate g t0 = []) := by
  refine ⟨?_, ?_, ?_, ?_⟩
  · rw [List.range_eq_range']
    exact gen_from_map_id w t0 w.duration_s 0 0 g
  · exact gen_from_sorted w t0 w.duration_s 0 0 g
  · intro r hr
    obtain ⟨j, hj1, hj2, hj3⟩ :=
      gen_from_arrival w t0 w.duration_s 0 0 g r hr
    exact ⟨j, by omega, hj3⟩
  · intro hd
    unfold SyntheticWorkload.generate
    rw [hd]
    rfl

/-- C10 (witness): the invariants evaluated at the concrete sample
configuration. -/
theorem C10_generator_invariants_witness :
    ValidRanges sample_workload.1 ∧
    (sample_workload.1.generate sample_workload.2 0).map
        LLMRequest.request_id =
      List.range (sample_workload.1.generate sample_workload.2 0).length :=
  ⟨by norm_num [ValidRanges, sample_workload, SyntheticWorkload.init],
   (C10_generator_invariants sample_workload.1 sample_workload.2 0
     (by norm_num [ValidRanges, sample_workload, SyntheticWorkload.init])).1⟩

/-- C1 (counterexample): two independent instantiations with the same
configuration and seed do not produce identical `(requestId,
promptTokens, maxNewTokens, arrivalTime)` sequences: `generate` stamps
`arrival_time = time.time() + sec`, so starting the two generations at
wall-clock epochs 0 and 1 yields sequences that agree on `(requestId,
promptTokens, maxNewTokens)` but differ in every `arrivalTime`. -/
theorem C1_wall_clock_cex :
    (sample_workload.1.generate sample_workload.2 0).map reqKey =
      (sample_workload.1.generate sample_workload.2 1).map reqKey ∧
    sample_workload.1.generate sample_workload.2 0 ≠
      sample_workload.1.generate sample_workload.2 1 := by
  constructor
  · exact generate_reqKey_epoch sample_workload.1 sample_workload.2 1 0
  · have hsh : sample_workload.1.generate sample_workload.2 1 =
        (sample_workload.1.generate sample_workload.2 0).map
          (shift_arrival (1 - 0)) :=
      generate_epoch_shift sample_workload.1 sample_workload.2 0 1
    have hrfl : sample_workload.1.generate sample_workload.2 0 =
        (gen_within sample_workload.1 0 0
          (requests_in_second sample_workload.1 sample_workload.2).1 0
          (requests_in_second sample_workload.1 sample_workload.2).2).1 ++
          [] := rfl
    have hlen : (sample_workload.1.generate sample_workload.2 0).length = 2 := by
      rw [hrfl, List.append_nil, gen_within_length, sample_workload_count]
    intro heq
    rcases hcase : sample_workload.1.generate sample_workload.2 0 with _ | ⟨r, t⟩
    · rw [hcase] at hlen
      simp at hlen
    · have h3 := heq.trans hsh
      rw [hcase] at h3
      simp only [List.map_cons, List.cons.injEq] at h3
      have h4 := congrArg LLMRequest.arrival_time h3.1
      simp [shift_arrival] at h4

/-- C1 (amended): for a fixed configuration and seed, re-instantiation
reproduces the `(requestId, promptTokens, maxNewTokens)` sequence
exactly; the `arrivalTime`s of the two generations agree only up to
translation by the difference of the two wall-clock epochs read by
`time.time()` at the start of each `generate` call (so the full
quadruple sequences coincide exactly when the two epochs coincide). -/
theorem C1_generate_deterministic_up_to_epoch (w : SyntheticWorkload)
    (g : RNG) (t0 t0' : ℚ) :
    (w.generate g t0').map reqKey = (w.generate g t0).map reqKey ∧
    w.generate g t0' =
      (w.generate g t0).map (shift_arrival (t0' - t0)) :=
  ⟨generate_reqKey_epoch w g t0 t0', generate_epoch_shift w g t0 t0'⟩
